import Mathlib

/-!
Shallow embedding of the transaction-categorization core of the
budget_claude repository (src/backend/app.py and
src/backend/langfuse_tracer.py), together with proofs about it.

Python strings are modelled as Lean `String`s; the string primitives the
source uses (`str.strip`, `str.split`, `str.replace`, `str.lower`,
`str.capitalize`, `int(...)`, slicing, `re.sub`) are modelled explicitly
on the underlying character lists so that they are executable and
amenable to proof.  Unicode-only behaviours (non-ASCII case folding,
non-ASCII digits in `int`) are out of scope: the embedding is faithful on
ASCII data, which is all the repository manipulates.
-/

namespace Budget

/-- The characters Python's `str.strip()` (and `re` class `\s`) treats as
whitespace, restricted to ASCII: space, tab, newline, carriage return,
vertical tab, form feed. -/
def isPyWs (c : Char) : Bool :=
  c == ' ' || c == '\t' || c == '\n' || c == '\r' ||
  c == Char.ofNat 11 || c == Char.ofNat 12

/-- The double-quote character. -/
def dqChar : Char := Char.ofNat 34

/-- The single-quote character. -/
def sqChar : Char := Char.ofNat 39

/-- Double quote as a one-character string. -/
def dq : String := dqChar.toString

/-- Single quote as a one-character string. -/
def sq : String := sqChar.toString

/-- Membership in Python's quote-strip set `'"\''` used by
`strip('"\'')` in the source. -/
def isQuote (c : Char) : Bool := c == dqChar || c == sqChar

/-- Drop characters satisfying `p` from both ends of a character list:
the common core of Python `str.strip()` and `str.strip('"\'')`. -/
def trimBy (p : Char → Bool) (l : List Char) : List Char :=
  ((l.dropWhile p).reverse.dropWhile p).reverse

/-- Python `s.strip()`. -/
def pyStrip (s : String) : String := ⟨trimBy isPyWs s.data⟩

/-- Python `s.strip('"\'')`. -/
def stripQuotes (s : String) : String := ⟨trimBy isQuote s.data⟩

/-- Python `s.lower()` (ASCII case folding). -/
def pyLower (s : String) : String := ⟨s.data.map Char.toLower⟩

/-- Python `s[:n]` on strings (take the first `n` characters). -/
def strTake (n : Nat) (s : String) : String := ⟨s.data.take n⟩

/-- Python `l[-n:]`: the last `n` elements of a list (the whole list when
it is shorter than `n`). -/
def lastN (n : Nat) (l : List α) : List α := l.drop (l.length - n)

/-- Python `s[-n:]` on strings. -/
def strLastN (n : Nat) (s : String) : String := ⟨lastN n s.data⟩

/-- Python `s.split(sep)` for a one-character separator, on character
lists.  `split` of the empty string yields `[[]]`, like Python's `[""]`. -/
def splitCharList (sep : Char) : List Char → List (List Char)
  | [] => [[]]
  | c :: rest =>
    match splitCharList sep rest with
    | [] => [[]]
    | g :: gs => if c = sep then [] :: g :: gs else (c :: g) :: gs

/-- Python `s.split('\n')`. -/
def pySplitLines (s : String) : List String :=
  (splitCharList '\n' s.data).map (fun l => (⟨l⟩ : String))

/-- Join character lists with a separator character (inverse of
`splitCharList` on separator-free groups). -/
def intercalateChar (sep : Char) : List (List Char) → List Char
  | [] => []
  | [x] => x
  | x :: y :: ys => x ++ sep :: intercalateChar sep (y :: ys)

/-- Join strings with newlines; used to build concrete backend responses
in theorem statements. -/
def joinLines (ls : List String) : String :=
  ⟨intercalateChar '\n' (ls.map String.data)⟩

/-- Python `s.split(sep, 1)` when the separator occurs: the parts before
and after the first occurrence.  `none` models Python returning a
one-element list (no separator present). -/
def splitFirst (sep : Char) : List Char → Option (List Char × List Char)
  | [] => none
  | c :: rest =>
    if c = sep then some ([], rest)
    else
      match splitFirst sep rest with
      | none => none
      | some (a, b) => some (c :: a, b)

/-- Python `s.replace('Row', '')`: remove every (leftmost,
non-overlapping) occurrence of `Row`.  When fewer than three characters
remain no occurrence fits, so the tail is kept as is. -/
def removeRow : List Char → List Char
  | [] => []
  | [c] => [c]
  | [c, d] => [c, d]
  | c :: d :: e :: rest =>
    if c = 'R' ∧ d = 'o' ∧ e = 'w' then removeRow rest
    else c :: removeRow (d :: e :: rest)

/-- Digit-run validity after the first digit for Python `int(...)`:
underscores are allowed only between digits. -/
def digitsTailOk : List Char → Bool
  | [] => true
  | c :: rest =>
    if c = '_' then
      match rest with
      | [] => false
      | d :: rest2 => d.isDigit && digitsTailOk rest2
    else c.isDigit && digitsTailOk rest

/-- Numeric value of a digit run (underscores skipped). -/
def digitsValue (l : List Char) : Nat :=
  (l.filter (fun c => c ≠ '_')).foldl (fun a c => 10 * a + (c.toNat - 48)) 0

/-- An unsigned decimal literal accepted by Python `int(...)` (ASCII
digits, internal underscores), or `none` when malformed. -/
def pyNatPart (l : List Char) : Option Nat :=
  match l with
  | [] => none
  | c :: rest =>
    if c.isDigit && digitsTailOk rest then some (digitsValue (c :: rest)) else none

/-- Python `int(s)` on an already-stripped string: optional sign followed
by digits.  `none` models the `ValueError` the source catches. -/
def pyIntOfList (l : List Char) : Option Int :=
  match l with
  | '+' :: rest => (pyNatPart rest).map (fun n => (n : Int))
  | '-' :: rest => (pyNatPart rest).map (fun n => -(n : Int))
  | _ => (pyNatPart l).map (fun n => (n : Int))

/-- Python `int(s)` on strings. -/
def pyIntOfStr (s : String) : Option Int := pyIntOfList s.data

/-- Python `s.split()` (split on whitespace runs, discarding empties):
accumulator-based word scanner. -/
def wordsAux : List Char → List Char → List (List Char)
  | [], cur => if cur = [] then [] else [cur.reverse]
  | c :: rest, cur =>
    if isPyWs c then
      if cur = [] then wordsAux rest [] else cur.reverse :: wordsAux rest []
    else wordsAux rest (c :: cur)

/-- Python `s.split()` on strings. -/
def pySplitWs (s : String) : List String :=
  (wordsAux s.data []).map (fun l => (⟨l⟩ : String))

/-- Python `word.capitalize()`: first character upper-cased, the rest
lower-cased (ASCII). -/
def pyCapitalize (s : String) : String :=
  match s.data with
  | [] => ""
  | c :: rest => ⟨c.toUpper :: rest.map Char.toLower⟩

/-- Fuel-indexed worker for `chunksOf`; with fuel at least the list
length and a positive chunk size it performs Python's
`range(0, len(l), n)` slicing. -/
def chunksOfAux (fuel n : Nat) : List α → List (List α)
  | [] => []
  | a :: t =>
    match fuel with
    | 0 => []
    | f + 1 => (a :: t).take n :: chunksOfAux f n ((a :: t).drop n)

/-- Python `range(0, len(l), n)` slicing: consecutive chunks of at most
`n` elements, in order; the last chunk may be shorter. -/
def chunksOf (n : Nat) (l : List α) : List (List α) := chunksOfAux l.length n l

/-- Last-binding association lookup: models lookup in a Python dict built
by repeated `d[k] = v` assignments when insertions are recorded as an
append-only list (a later assignment to the same key wins). -/
def lookupLast [BEq κ] (d : List (κ × β)) (k : κ) : Option β :=
  (d.reverse.find? (fun p => p.1 == k)).map Prod.snd

/-! ## Data model -/

/-- A transaction row's data dict.  Only the four keys the categorization
core reads are modelled; `none` models an absent key (the `.get`
defaults in the source then apply). -/
structure Tx where
  date? : Option String := none
  txDate? : Option String := none
  amount? : Option String := none
  desc? : Option String := none
deriving DecidableEq

/-- One `{date, amount, description, category}` example dict as built by
the source's `previous_mappings` lists.  Every in-repo constructor of
these dicts fills all four keys, so the fields are total. -/
structure HistEx where
  date : String
  amount : String
  description : String
  category : String
deriving DecidableEq

/-- Result dict of `get_llm_suggestion`: `{'success': True, 'suggestion':
s, 'error': None}` or `{'success': False, 'error': e, 'suggestion':
None}`. -/
inductive SingleResult where
  | success (suggestion : String) : SingleResult
  | failure (error : String) : SingleResult
deriving DecidableEq

/-- Per-row result dict of `get_batch_llm_suggestions`, same shape as
`SingleResult`. -/
inductive RowResult where
  | success (suggestion : String) : RowResult
  | failure (error : String) : RowResult
deriving DecidableEq

/-- What the Ollama backend did for one `requests.post` call: connection
refused (`requests.exceptions.ConnectionError`), or an HTTP response
with a status code and the decoded `response` field of its JSON body
(`response.json().get('response', '')`). -/
inductive BackendResponse where
  | connError : BackendResponse
  | httpResponse (status : Nat) (respField : String) : BackendResponse
deriving DecidableEq

/-- `OLLAMA_API_URL`'s default value (no environment override). -/
def OLLAMA_API_URL : String := "http://host.docker.internal:11434"

/-- The error message both suggestion paths produce on
`ConnectionError`. -/
def connMsg : String :=
  "Could not connect to Ollama. Make sure Ollama is running on " ++ OLLAMA_API_URL

/-- `f'Ollama API error: {response.status_code}'`. -/
def apiErrMsg (status : Nat) : String := "Ollama API error: " ++ toString status

/-- `f'LLM did not provide valid category for row {idx}'` for integer
row indices. -/
def missingMsg (idx : Int) : String :=
  "LLM did not provide valid category for row " ++ toString idx

/-- `f'LLM did not provide valid category for row {idx}'` for string row
indices (the bulk path). -/
def missingMsgStr (idx : String) : String :=
  "LLM did not provide valid category for row " ++ idx

/-- `str(IndexError(...))` raised by indexing a too-short list, as caught
by the generic `except Exception` handler in `get_batch_llm_suggestions`. -/
def indexErrMsg : String := "list index out of range"

/-! ## PromptBuilder -/

/-- `", ".join(categories)`. -/
def catsJoin (cats : List String) : String := String.intercalate ", " cats

/-- One rendered history-example line:
`- Date: {date} | Amount: {amount} | Description: "{description}" → {category}`
followed by a newline. -/
def renderHistLine (m : HistEx) : String :=
  "- Date: " ++ m.date ++ " | Amount: " ++ m.amount ++ " | Description: " ++
    dq ++ m.description ++ dq ++ " → " ++ m.category ++ "\n"

/-- The examples section of a prompt: empty when there is no history,
otherwise a header plus the rendered lines of the last 100 examples
(`previous_mappings[-100:]`), in the supplied order. -/
def examplesBlock (hist : List HistEx) : String :=
  if hist = [] then ""
  else
    "\nHere are examples of previous categorizations:\n" ++
      String.join ((lastN 100 hist).map renderHistLine)

/-- `build_llm_prompt` (single-row prompt). -/
def build_llm_prompt (transaction_data : Tx) (categories : List String)
    (previous_mappings : List HistEx) : String :=
  "You are a budget categorization assistant. Based on transaction details, suggest the most appropriate budget category.\n\nAvailable Categories: "
  ++ catsJoin categories
  ++ "\n\n" ++ examplesBlock previous_mappings
  ++ "\n\nCurrent Transaction to Categorize:\n- Date: "
  ++ transaction_data.date?.getD "N/A"
  ++ "\n- Amount: " ++ transaction_data.amount?.getD "N/A"
  ++ "\n- Description: " ++ transaction_data.desc?.getD "N/A"
  ++ "\n\nBased on the description, amount, and available categories, respond with ONLY the category name that best matches this transaction. Do not include any explanation, just the category name.\n\nCategory: "

/-- One rendered transaction line of the batch prompt:
`Row {idx}: Date: {d} | Amount: {a} | Description: "{desc}"` plus a
newline.  The date falls back from `Date` to `Transaction Date` to
`N/A`. -/
def renderBatchTxLine [ToString ι] (p : ι × Tx) : String :=
  "Row " ++ toString p.1 ++ ": Date: "
  ++ (p.2.date?.getD (p.2.txDate?.getD "N/A"))
  ++ " | Amount: " ++ p.2.amount?.getD "N/A"
  ++ " | Description: " ++ dq ++ p.2.desc?.getD "N/A" ++ dq ++ "\n"

/-- `build_batch_llm_prompt`.  The template f-string interpolates
`transaction_batch[0][0]` and `transaction_batch[1][0]` unconditionally,
so on a batch of fewer than two rows the Python function raises
`IndexError`; `none` models that raise. -/
def build_batch_llm_prompt [ToString ι] (transaction_batch : List (ι × Tx))
    (categories : List String) (previous_mappings : List HistEx) : Option String :=
  match transaction_batch with
  | p0 :: p1 :: _ =>
    some ("You are a budget categorization assistant. Based on transaction details, suggest the most appropriate budget category for each transaction.\n\nAvailable Categories: "
      ++ catsJoin categories
      ++ "\n\n" ++ examplesBlock previous_mappings
      ++ "\n\nTransactions to Categorize (batch processing):\n"
      ++ String.join (transaction_batch.map renderBatchTxLine)
      ++ "\n\nFor each transaction above, provide the category in the following format:\nRow "
      ++ toString p0.1 ++ ": <CATEGORY_NAME>\nRow " ++ toString p1.1
      ++ ": <CATEGORY_NAME>\n...(continue for each row)\n\nRules:\n- Respond with ONLY the row and category mapping\n- Do not include any explanation\n- Each line must be in the format: Row <number>: <CATEGORY_NAME>\n- Use the exact category names from the available list\n- Process all transactions\n\nCategories: ")
  | _ => none

/-! ## SuggestionEngine -/

/-- Category validation shared by the single and batch paths (lines
254-268 and 425-434 of app.py): exact membership first, otherwise the
first case-insensitive match from the category list (substituting its
canonical casing), otherwise `none`. -/
def resolveCategory (categories : List String) (suggestion : String) : Option String :=
  if suggestion ∈ categories then some suggestion
  else categories.find? (fun cat => pyLower cat == pyLower suggestion)

/-- `get_llm_suggestion`.  The transaction, history and tracing arguments
of the Python function only feed the prompt text and the observability
sink; they do not affect the returned dict, so the embedding takes the
category list and the backend's response. -/
def get_llm_suggestion (categories : List String) (resp : BackendResponse) :
    SingleResult :=
  match resp with
  | BackendResponse.connError => SingleResult.failure connMsg
  | BackendResponse.httpResponse status text =>
    if status = 200 then
      let response_text := pyStrip text
      let suggestion := stripQuotes (pyStrip response_text)
      match resolveCategory categories suggestion with
      | some c => SingleResult.success c
      | none => SingleResult.failure ("LLM suggested invalid category: " ++ suggestion)
    else SingleResult.failure (apiErrMsg status)

/-- Parse one line of a batch response (the body of the `for line in
lines` loop): `none` models `continue` (malformed line, silently
skipped); `some (i, some c)` a validated suggestion `c` for row `i`;
`some (i, none)` the `parsed_suggestions[row_idx] = None` marker written
when the category matched no known category even case-insensitively. -/
def lineParse (categories : List String) (rawLine : String) :
    Option (Int × Option String) :=
  let line := pyStrip rawLine
  if line = "" then none
  else if ¬ (['R', 'o', 'w'].isPrefixOf line.data) then none
  else
    match splitFirst ':' line.data with
    | none => none
    | some (partA, partB) =>
      let rowPart := trimBy isPyWs partA
      let categoryPart := trimBy isPyWs partB
      let idxStr := trimBy isPyWs (removeRow rowPart)
      match pyIntOfList idxStr with
      | none => none
      | some n =>
        let suggestion := stripQuotes ⟨trimBy isPyWs categoryPart⟩
        match resolveCategory categories suggestion with
        | some c => some (n, some c)
        | none => some (n, none)

/-- One iteration of the parsing loop: a skipped line leaves the dict
unchanged, a parsed line records its assignment. -/
def parseStep (categories : List String) (acc : List (Int × Option String))
    (l : String) : List (Int × Option String) :=
  match lineParse categories l with
  | none => acc
  | some p => acc ++ [p]

/-- The `parsed_suggestions` dict after the parsing loop, as the ordered
list of assignments (`lookupLast` recovers dict lookup). -/
def parseLines (categories : List String) (lines : List String) :
    List (Int × Option String) :=
  lines.foldl (parseStep categories) []

/-- Batch-response parsing: strip the `response` field, split it on
newlines, run the line parser over every line. -/
def parseBatchResponse (categories : List String) (text : String) :
    List (Int × Option String) :=
  parseLines categories (pySplitLines (pyStrip text))

/-- The result-building loop body for one row of the batch: success when
the parsed dict holds a truthy (non-`None`, non-empty) suggestion for
the index, the `missingMsg` failure otherwise. -/
def rowOutcome (parsed : List (Int × Option String)) (idx : Int) : RowResult :=
  match lookupLast parsed idx with
  | some (some s) => if s = "" then RowResult.failure (missingMsg idx) else RowResult.success s
  | _ => RowResult.failure (missingMsg idx)

/-- `get_batch_llm_suggestions` with integer row indices (as in the
repository's test file and the spec's data model).  The prompt is built
first inside the `try`, so a batch of fewer than two rows dies with
`IndexError` before any network call and every row gets the
`indexErrMsg` failure from the generic exception handler. -/
def get_batch_llm_suggestions (transaction_batch : List (Int × Tx))
    (categories : List String) (previous_mappings : List HistEx)
    (resp : BackendResponse) : List (Int × RowResult) :=
  match build_batch_llm_prompt transaction_batch categories previous_mappings with
  | none => transaction_batch.map (fun p => (p.1, RowResult.failure indexErrMsg))
  | some _ =>
    match resp with
    | BackendResponse.connError =>
      transaction_batch.map (fun p => (p.1, RowResult.failure connMsg))
    | BackendResponse.httpResponse status text =>
      if status = 200 then
        let parsed := parseBatchResponse categories text
        transaction_batch.map (fun p => (p.1, rowOutcome parsed p.1))
      else transaction_batch.map (fun p => (p.1, RowResult.failure (apiErrMsg status)))

/-- Python `==` between a `str` and an `int` compares values of different
types and is always `False`; this is the comparison performed by
`idx in parsed_suggestions` when `bulk_map` passes its string row keys
to `get_batch_llm_suggestions` while the parser fills
`parsed_suggestions` with `int` keys. -/
def strEqInt (_idx : String) (_key : Int) : Bool := false

/-- The result-building loop body for one row when the batch was invoked
with string row indices (the `bulk_map` call site): dict membership
tests a `str` against the parser's `int` keys. -/
def rowOutcomeStr (parsed : List (Int × Option String)) (idx : String) : RowResult :=
  match (parsed.reverse.find? (fun q => strEqInt idx q.1)).map Prod.snd with
  | some (some s) =>
    if s = "" then RowResult.failure (missingMsgStr idx) else RowResult.success s
  | _ => RowResult.failure (missingMsgStr idx)

/-- `get_batch_llm_suggestions` exactly as invoked from `bulk_map`, where
the row indices are the string keys of the progress dict. -/
def get_batch_llm_suggestions_strIdx (transaction_batch : List (String × Tx))
    (categories : List String) (previous_mappings : List HistEx)
    (resp : BackendResponse) : List (String × RowResult) :=
  match build_batch_llm_prompt transaction_batch categories previous_mappings with
  | none => transaction_batch.map (fun p => (p.1, RowResult.failure indexErrMsg))
  | some _ =>
    match resp with
    | BackendResponse.connError =>
      transaction_batch.map (fun p => (p.1, RowResult.failure connMsg))
    | BackendResponse.httpResponse status text =>
      if status = 200 then
        let parsed := parseBatchResponse categories text
        transaction_batch.map (fun p => (p.1, rowOutcomeStr parsed p.1))
      else transaction_batch.map (fun p => (p.1, RowResult.failure (apiErrMsg status)))

/-! ## CategoryValidator -/

/-- Return dict of `validate_and_correct_category`. -/
structure ValidationResult where
  original : String
  corrected : String
  has_corrections : Bool
  corrections : List String
deriving DecidableEq

/-- The capitalization step: split on whitespace, `capitalize()` each
word except the literal `&`, re-join with single spaces. -/
def capitalizeWords (s : String) : String :=
  String.intercalate " "
    ((pySplitWs s).map (fun w => if w = "&" then w else pyCapitalize w))

/-- Is `c` kept by the validator's `re.sub` character-stripping step
(ASCII letters, digits, whitespace, ampersand, hyphen, slash)? -/
def keepChar (c : Char) : Bool :=
  c.isAlpha || c.isDigit || isPyWs c || c == '&' || c == '-' || c == '/'

/-- The character-stripping step of the validator. -/
def stripSpecial (s : String) : String := ⟨s.data.filter keepChar⟩

/-- `validate_and_correct_category`. -/
def validate_and_correct_category (category_name : String) : ValidationResult :=
  let corrected0 := pyStrip category_name
  if corrected0 = "" then
    ⟨category_name, corrected0, true, ["Category name cannot be empty"]⟩
  else
    let corrected1 := if corrected0.length > 50 then strTake 50 corrected0 else corrected0
    let corrections1 : List String :=
      if corrected0.length > 50 then
        ["Truncated from " ++ toString corrected0.length ++ " to 50 characters"]
      else []
    let corrected2 := capitalizeWords corrected1
    let corrections2 :=
      if corrected1 ≠ corrected2 then
        corrections1 ++
          ["Capitalization: " ++ sq ++ corrected1 ++ sq ++ " → " ++ sq ++ corrected2 ++ sq]
      else corrections1
    let corrected3 := stripSpecial corrected2
    let corrections3 :=
      if corrected2 ≠ corrected3 then
        corrections2 ++
          ["Removed invalid characters: " ++ sq ++ corrected2 ++ sq ++ " → " ++ sq ++
            corrected3 ++ sq]
      else corrections2
    ⟨category_name, corrected3, !corrections3.isEmpty, corrections3⟩

/-! ## Observability sink (langfuse_tracer.add_generation) -/

/-- What `add_generation` hands to `trace.generation(...)`: the
(possibly truncated) input and output texts plus the size metadata.  The
Python code only writes the `*_truncated` metadata keys when truncation
happened; `false` models the absent key. -/
structure GenRecord where
  input : String
  output : String
  input_length : Nat
  output_length : Nat
  input_truncated : Bool
  output_truncated : Bool
deriving DecidableEq

/-- The separator inserted between the kept head and tail of a truncated
payload. -/
def truncMarker : String := "\n\n[... truncated ...]\n\n"

/-- The payload-truncation logic of `LangfuseTracer.add_generation`:
inputs over 10,000 characters keep their first 5,000 and last 2,000
characters; outputs over 5,000 characters keep their first 2,000 and
last 2,000. -/
def add_generation (input_text output_text : String) : GenRecord :=
  let truncated_input :=
    if input_text.length > 10000 then
      strTake 5000 input_text ++ truncMarker ++ strLastN 2000 input_text
    else input_text
  let truncated_output :=
    if output_text.length > 5000 then
      strTake 2000 output_text ++ truncMarker ++ strLastN 2000 output_text
    else output_text
  ⟨truncated_input, truncated_output, input_text.length, output_text.length,
    decide (input_text.length > 10000), decide (output_text.length > 5000)⟩

/-! ## BatchOrchestrator (bulk_map) -/

/-- One entry of the progress dict's `rows` mapping:
`{"data": ..., "category": ..., "mapped": ...}`. -/
structure ProgressRow where
  data : Tx
  category : Option String
  mapped : Bool
deriving DecidableEq

/-- One entry of the `mappings` dict `bulk_map` returns per row. In the
success branch the Python dict has no `error` key and in the failure
branch `suggestion` is `None`; absent keys are modelled as `none`. -/
structure MappingEntry where
  data : Tx
  suggestion : Option String
  err : Option String
  confirmed : Bool
deriving DecidableEq

/-- A record of one `get_batch_llm_suggestions` invocation made during a
bulk run: the `(idx, data)` batch passed and the `previous_mappings`
list in effect for that call's prompt.  The Python function does not
return this log; the embedding records the interaction trace so that
call counts, batch sizes and prompt context can be stated. -/
structure CallRecord where
  batch : List (String × Tx)
  hist : List HistEx
deriving DecidableEq

/-- The three response shapes of the `/api/bulk-map` endpoint: the
400 `No categories available` error, the early `All items already
mapped` success, and the full run's success carrying the mappings and
`unmapped_count`. -/
inductive BulkResponse where
  | noCategories : BulkResponse
  | allMapped : BulkResponse
  | done (mappings : List (String × MappingEntry)) (unmappedCount : Nat) : BulkResponse
deriving DecidableEq

/-- `rows[idx]` lookup; every index `bulk_map` uses comes from the rows
dict itself, so the default row is never reached. -/
def rowLookup (rows : List (String × ProgressRow)) (idx : String) : ProgressRow :=
  match rows.find? (fun p => p.1 == idx) with
  | some p => p.2
  | none => ⟨{}, none, false⟩

/-- The history example `bulk_map` builds from a row's data dict and a
category, reading the `Transaction Date` key (defaulting to `""`). -/
def histOfSuggestion (d : Tx) (c : String) : HistEx :=
  ⟨d.txDate?.getD "", d.amount?.getD "", d.desc?.getD "", c⟩

/-- The per-row result processing of one batch inside `bulk_map`'s loop:
successful rows with a truthy suggestion are added to `mappings` and
appended to `previous_mappings`; all other rows get a failure entry
whose `error` is the result's error (`None` for a success dict without a
truthy suggestion, since the key is present with value `None`). -/
def applyBatchResults (rows : List (String × ProgressRow))
    (acc : List (String × MappingEntry) × List HistEx)
    (results : List (String × RowResult)) :
    List (String × MappingEntry) × List HistEx :=
  results.foldl
    (fun acc pr =>
      let d := (rowLookup rows pr.1).data
      match pr.2 with
      | RowResult.success s =>
        if s = "" then (acc.1 ++ [(pr.1, ⟨d, none, none, false⟩)], acc.2)
        else
          (acc.1 ++ [(pr.1, ⟨d, some s, none, false⟩)],
           acc.2 ++ [histOfSuggestion d s])
      | RowResult.failure e => (acc.1 ++ [(pr.1, ⟨d, none, some e, false⟩)], acc.2))
    acc

/-- State threaded through `bulk_map`'s batch loop. -/
structure BulkState where
  mappings : List (String × MappingEntry)
  prev : List HistEx
  callLog : List CallRecord
  callIdx : Nat
deriving DecidableEq

/-- The batch loop of `bulk_map`: one `get_batch_llm_suggestions` call
per chunk, strictly in order, with that call's results folded into the
mappings and the shared `previous_mappings` list before the next chunk
runs.  `backend k` is the backend's behaviour on the `k`-th call. -/
def bulkLoop (rows : List (String × ProgressRow)) (categories : List String)
    (backend : Nat → BackendResponse) :
    List (List String) → BulkState → BulkState
  | [], st => st
  | chunk :: rest, st =>
    let batch := chunk.map (fun idx => (idx, (rowLookup rows idx).data))
    let results :=
      get_batch_llm_suggestions_strIdx batch categories st.prev (backend st.callIdx)
    let mp := applyBatchResults rows (st.mappings, st.prev) results
    bulkLoop rows categories backend rest
      ⟨mp.1, mp.2, st.callLog ++ [⟨batch, st.prev⟩], st.callIdx + 1⟩

/-- `bulk_map`.  `rows` is the progress dict's `rows` mapping in
insertion order (its keys are the strings `str(idx)`); `backend` gives
the backend's behaviour for each successive call.  Returns the endpoint
response together with the log of batch calls made. -/
def bulk_map (rows : List (String × ProgressRow)) (categories : List String)
    (backend : Nat → BackendResponse) : BulkResponse × List CallRecord :=
  if categories = [] then (BulkResponse.noCategories, [])
  else
    let unmapped := (rows.filter (fun p => !p.2.mapped)).map Prod.fst
    if unmapped = [] then (BulkResponse.allMapped, [])
    else
      let hist0 := rows.filterMap
        (fun p =>
          if p.2.mapped then
            match p.2.category with
            | some c => if c = "" then none else some (histOfSuggestion p.2.data c)
            | none => none
          else none)
      let finalSt := bulkLoop rows categories backend (chunksOf 5 unmapped) ⟨[], hist0, [], 0⟩
      (BulkResponse.done finalSt.mappings unmapped.length, finalSt.callLog)

/-- Did the parsed dict fail to hold a truthy suggestion for row `i`
(index absent, `None` marker from a discarded category, or an empty
suggestion)? -/
def noValidSuggestion (parsed : List (Int × Option String)) (i : Int) : Bool :=
  match lookupLast parsed i with
  | some (some s) => s == ""
  | _ => true

/-- Concrete 6000-character output payload for C9. -/
def cOutBig : String := ⟨List.replicate 6000 'a'⟩

/-- Concrete 10,001-character input payload for the C9 witness. -/
def cInBig : String := ⟨List.replicate 10001 'a'⟩

/-- Transaction data for row `k` of the concrete bulk run. -/
def txD (k : Nat) : Tx :=
  ⟨none, some "01/01/2025", some "1.00", some ("D" ++ toString k)⟩

/-- Twelve unmapped progress rows keyed by the strings `"0"`…`"11"`,
exactly as `bulk_map` receives them from the JSON-backed progress
store. -/
def rows12 : List (String × ProgressRow) :=
  (List.range 12).map (fun k => (toString k, ⟨txD k, none, false⟩))

/-- Well-formed backend response for the first batch of five. -/
def resp0 : String :=
  "Row 0: Food\nRow 1: Food\nRow 2: Food\nRow 3: Food\nRow 4: Food"

/-- Well-formed backend response for the second batch of five. -/
def resp1 : String :=
  "Row 5: Food\nRow 6: Food\nRow 7: Food\nRow 8: Food\nRow 9: Food"

/-- Well-formed backend response for the final batch of two. -/
def resp2 : String := "Row 10: Food\nRow 11: Food"

/-- A backend that answers every bulk batch with valid `Row k: Food`
lines for exactly that batch's rows. -/
def oracle12 : Nat → BackendResponse
  | 0 => BackendResponse.httpResponse 200 resp0
  | 1 => BackendResponse.httpResponse 200 resp1
  | _ => BackendResponse.httpResponse 200 resp2

/-- What the concrete bulk run actually returns: a failure entry for
every row. -/
def expectedMappings12 : List (String × MappingEntry) :=
  (List.range 12).map
    (fun k => (toString k, ⟨txD k, none, some (missingMsgStr (toString k)), false⟩))

/-- The list has no leading and no trailing character satisfying `p`. -/
def noEdge (p : Char → Bool) (l : List Char) : Prop :=
  l.dropWhile p = l ∧ l.reverse.dropWhile p = l.reverse

instance (p : Char → Bool) (l : List Char) : Decidable (noEdge p l) := by
  unfold noEdge
  infer_instance

/-- One well-formed response line for the general batch-success theorem:
row index `idx` with transaction `tx`, rendered in the response as
`Row {tok}: {raw}`, where `raw` resolves to the canonical category
`canon`. -/
structure LineSpec where
  idx : Int
  tx : Tx
  tok : String
  raw : String
  canon : String
deriving DecidableEq

/-- The response line `Row {tok}: {raw}` of a `LineSpec`. -/
def mkRowLine (s : LineSpec) : String := "Row " ++ s.tok ++ ": " ++ s.raw

/-- Well-formedness of one response line: the token parses (via Python
`int`) to exactly the row's index and is a clean integer literal (no
colon, newline, capital `R` or edge whitespace — all true of any actual
decimal rendering of an integer), the raw category text is nonempty,
newline-free and has no edge whitespace, and after quote-stripping it
resolves to the nonempty canonical category `canon`. -/
def specOk (categories : List String) (s : LineSpec) : Prop :=
  pyIntOfStr s.tok = some s.idx
  ∧ s.tok ≠ ""
  ∧ ':' ∉ s.tok.data
  ∧ '\n' ∉ s.tok.data
  ∧ 'R' ∉ s.tok.data
  ∧ noEdge isPyWs s.tok.data
  ∧ s.raw ≠ ""
  ∧ '\n' ∉ s.raw.data
  ∧ noEdge isPyWs s.raw.data
  ∧ resolveCategory categories (stripQuotes s.raw) = some s.canon
  ∧ s.canon ≠ ""

instance (categories : List String) (s : LineSpec) :
    Decidable (specOk categories s) := by
  unfold specOk
  infer_instance

/-! ## Supporting lemmas -/

theorem lastN_of_le {l : List α} {n : Nat} (h : l.length ≤ n) : lastN n l = l := by
  unfold lastN
  rw [Nat.sub_eq_zero_of_le h, List.drop_zero]

theorem lastN_idem (n : Nat) (l : List α) : lastN n (lastN n l) = lastN n l := by
  unfold lastN
  rw [List.length_drop, List.drop_drop]
  congr 1
  omega

theorem lastN_eq_nil_iff {l : List α} {n : Nat} (hn : 0 < n) :
    lastN n l = [] ↔ l = [] := by
  unfold lastN
  rw [List.drop_eq_nil_iff]
  constructor
  · intro h
    cases l with
    | nil => rfl
    | cons a t => exfalso; simp only [List.length_cons] at h; omega
  · intro h
    subst h
    simp

theorem examplesBlock_lastN (hist : List HistEx) :
    examplesBlock (lastN 100 hist) = examplesBlock hist := by
  unfold examplesBlock
  rw [lastN_idem]
  by_cases h : hist = []
  · subst h
    simp [lastN]
  · rw [if_neg h, if_neg ((not_iff_not.mpr (lastN_eq_nil_iff (by norm_num))).mpr h)]

theorem build_llm_prompt_lastN (tx : Tx) (cats : List String) (hist : List HistEx) :
    build_llm_prompt tx cats (lastN 100 hist) = build_llm_prompt tx cats hist := by
  unfold build_llm_prompt
  rw [examplesBlock_lastN]

theorem build_batch_llm_prompt_lastN (batch : List (Int × Tx)) (cats : List String)
    (hist : List HistEx) :
    build_batch_llm_prompt batch cats (lastN 100 hist)
      = build_batch_llm_prompt batch cats hist := by
  match batch with
  | [] => rfl
  | [p] => rfl
  | p0 :: p1 :: rest =>
    unfold build_batch_llm_prompt
    rw [examplesBlock_lastN]

theorem resolveCategory_canonical (categories : List String) (C s : String)
    (hmem : C ∈ categories)
    (hded : ∀ C' ∈ categories, pyLower C' = pyLower C → C' = C)
    (hci : pyLower s = pyLower C) :
    resolveCategory categories s = some C := by
  unfold resolveCategory
  by_cases hs : s ∈ categories
  · rw [if_pos hs]
    exact congrArg some (hded s hs hci)
  · rw [if_neg hs]
    rcases h : categories.find? (fun cat => pyLower cat == pyLower s) with _ | c
    · exfalso
      have := List.find?_eq_none.mp h C hmem
      simp [hci] at this
    · have hcmem := List.mem_of_find?_eq_some h
      have hcp : pyLower c = pyLower s := by
        have := List.find?_some h
        exact eq_of_beq (by simpa using this)
      rw [hded c hcmem (hcp.trans hci)]

theorem lookupLast_eq_none [BEq κ] {β : Type _} (ps : List (κ × β)) (k : κ)
    (h : ∀ q ∈ ps, ¬ (q.1 == k) = true) : lookupLast ps k = none := by
  unfold lookupLast
  rw [List.find?_eq_none.mpr (fun q hq => h q (List.mem_reverse.mp hq))]
  rfl

theorem lookupLast_eq_of_mem_nodup [BEq κ] [LawfulBEq κ] {β : Type _}
    (ps : List (κ × β)) (k : κ) (v : β) (hmem : (k, v) ∈ ps)
    (hnd : (ps.map Prod.fst).Nodup) : lookupLast ps k = some v := by
  induction ps with
  | nil => cases hmem
  | cons p rest ih =>
    simp only [List.map_cons, List.nodup_cons] at hnd
    obtain ⟨hk, hnd'⟩ := hnd
    unfold lookupLast
    rw [List.reverse_cons, List.find?_append]
    rcases List.mem_cons.mp hmem with heq | hmem'
    · have hpk : p.1 = k := by rw [← heq]
      have hnone : rest.reverse.find? (fun q => q.1 == k) = none := by
        apply List.find?_eq_none.mpr
        intro q hq
        have hqm : q.1 ∈ rest.map Prod.fst :=
          List.mem_map_of_mem Prod.fst (List.mem_reverse.mp hq)
        have hne : q.1 ≠ k := by
          intro he
          apply hk
          rw [hpk, ← he]
          exact hqm
        simp [hne]
      rw [hnone]
      simp [← heq]
    · have hsome := ih hmem' hnd'
      unfold lookupLast at hsome
      rcases hfind : rest.reverse.find? (fun q => q.1 == k) with _ | q
      · rw [hfind] at hsome
        cases hsome
      · rw [hfind] at hsome
        rw [hfind]
        simpa using hsome

theorem foldl_parseStep (categories : List String) (lines : List String)
    (acc : List (Int × Option String)) :
    lines.foldl (parseStep categories) acc
      = acc ++ lines.filterMap (lineParse categories) := by
  induction lines generalizing acc with
  | nil => simp
  | cons a t ih =>
    simp only [List.foldl_cons, List.filterMap_cons, parseStep]
    cases h : lineParse categories a with
    | none => exact ih acc
    | some b => exact (ih (acc ++ [b])).trans (by rw [List.append_assoc]; rfl)

theorem parseLines_eq_filterMap (categories : List String) (lines : List String) :
    parseLines categories lines = lines.filterMap (lineParse categories) := by
  unfold parseLines
  exact (foldl_parseStep categories lines []).trans
    (List.nil_append (List.filterMap (lineParse categories) lines))

/-! ## Claims -/

/-- C6: the rendered prompt (single and batch) contains at most the last
100 history examples — it is literally identical to the prompt built
from `previous_mappings[-100:]` — and with 101 history entries it is
identical to the prompt built without the oldest entry, which therefore
cannot appear anywhere in it. -/
theorem claim_C6 (tx : Tx) (cats : List String) (hist : List HistEx)
    (batch : List (Int × Tx)) :
    build_llm_prompt tx cats hist = build_llm_prompt tx cats (lastN 100 hist)
    ∧ build_batch_llm_prompt batch cats hist
        = build_batch_llm_prompt batch cats (lastN 100 hist)
    ∧ (hist.length = 101 →
        build_llm_prompt tx cats hist = build_llm_prompt tx cats hist.tail
        ∧ build_batch_llm_prompt batch cats hist
            = build_batch_llm_prompt batch cats hist.tail) := by
  refine ⟨(build_llm_prompt_lastN tx cats hist).symm,
    (build_batch_llm_prompt_lastN batch cats hist).symm, ?_⟩
  intro hlen
  have ht : lastN 100 hist = hist.tail := by
    unfold lastN
    rw [hlen]
    norm_num [List.drop_one]
  constructor
  · rw [← build_llm_prompt_lastN tx cats hist, ht]
  · rw [← build_batch_llm_prompt_lastN batch cats hist, ht]

/-- Witness for C6 at a concrete 101-entry history. -/
theorem claim_C6_witness :
    build_llm_prompt {} ["Food"] (List.replicate 101 (⟨"d", "a", "x", "c"⟩ : HistEx))
      = build_llm_prompt {} ["Food"] (List.replicate 101 (⟨"d", "a", "x", "c"⟩ : HistEx)).tail
    ∧ build_batch_llm_prompt ([] : List (Int × Tx)) ["Food"]
        (List.replicate 101 (⟨"d", "a", "x", "c"⟩ : HistEx))
      = build_batch_llm_prompt ([] : List (Int × Tx)) ["Food"]
        (List.replicate 101 (⟨"d", "a", "x", "c"⟩ : HistEx)).tail :=
  (claim_C6 {} ["Food"] _ []).2.2 (by simp)

/-- C7: the validator applies truncation, then capitalization (with `&`
kept), then character stripping, in that order, each step feeding the
next; `validate("  coffee & snacks!!")` yields corrected
`"Coffee & Snacks"` with corrections recorded; a trimmed-empty input
yields `has_corrections` with an empty corrected string and the
empty-name message. -/
theorem claim_C7 :
    (∀ s, pyStrip s ≠ "" →
      (validate_and_correct_category s).corrected
        = stripSpecial (capitalizeWords
            (if (pyStrip s).length > 50 then strTake 50 (pyStrip s) else pyStrip s)))
    ∧ validate_and_correct_category "  coffee & snacks!!"
        = ⟨"  coffee & snacks!!", "Coffee & Snacks", true,
           ["Capitalization: " ++ sq ++ "coffee & snacks!!" ++ sq ++ " → " ++ sq ++
              "Coffee & Snacks!!" ++ sq,
            "Removed invalid characters: " ++ sq ++ "Coffee & Snacks!!" ++ sq ++ " → " ++
              sq ++ "Coffee & Snacks" ++ sq]⟩
    ∧ (∀ s, pyStrip s = "" →
        validate_and_correct_category s
          = ⟨s, "", true, ["Category name cannot be empty"]⟩) := by
  refine ⟨?_, by decide, ?_⟩
  · intro s h
    unfold validate_and_correct_category
    rw [if_neg h]
  · intro s h
    unfold validate_and_correct_category
    rw [if_pos h, h]

/-- Witness for C7 at concrete inputs for both the nonempty and the
empty branch. -/
theorem claim_C7_witness :
    (validate_and_correct_category "  coffee & snacks!!").corrected
      = stripSpecial (capitalizeWords
          (if (pyStrip "  coffee & snacks!!").length > 50 then
            strTake 50 (pyStrip "  coffee & snacks!!")
          else pyStrip "  coffee & snacks!!"))
    ∧ validate_and_correct_category " "
        = ⟨" ", "", true, ["Category name cannot be empty"]⟩ :=
  ⟨claim_C7.1 "  coffee & snacks!!" (by decide), claim_C7.2.2 " " (by decide)⟩

/-- C4: when the cleaned model output matches a known category at least
case-insensitively (and the category set is case-insensitively
duplicate-free at that category, as the spec's invariant requires), both
the single-mode function and the shared resolution step return exactly
the canonically-cased category: exact match first, then case-insensitive
substitution. -/
theorem claim_C4 (categories : List String) (C raw : String)
    (hmem : C ∈ categories)
    (hded : ∀ C' ∈ categories, pyLower C' = pyLower C → C' = C)
    (hci : pyLower (stripQuotes (pyStrip (pyStrip raw))) = pyLower C) :
    get_llm_suggestion categories (BackendResponse.httpResponse 200 raw)
      = SingleResult.success C
    ∧ resolveCategory categories (stripQuotes (pyStrip (pyStrip raw))) = some C := by
  have hres := resolveCategory_canonical categories C _ hmem hded hci
  refine ⟨?_, hres⟩
  simp [get_llm_suggestion, hres]

/-- Witness for C4: quoted, whitespace-padded, upper-cased model output
resolves to the canonical category. -/
theorem claim_C4_witness :
    get_llm_suggestion ["Food & Groceries", "Other"]
        (BackendResponse.httpResponse 200 ("  " ++ dq ++ "FOOD & GROCERIES" ++ dq ++ " "))
      = SingleResult.success "Food & Groceries"
    ∧ resolveCategory ["Food & Groceries", "Other"]
        (stripQuotes (pyStrip (pyStrip ("  " ++ dq ++ "FOOD & GROCERIES" ++ dq ++ " "))))
      = some "Food & Groceries" :=
  claim_C4 ["Food & Groceries", "Other"] "Food & Groceries" _
    (by decide) (by decide) (by decide)

/-- C10: a later qualifying line for a row index overwrites the earlier
parsed value for that index (dict assignment, last write wins); in
particular a later line with an unknown category stores the `None`
marker over an earlier valid suggestion, so the row is reported as a
failure despite the earlier valid line. -/
theorem claim_C10 :
    (∀ (categories ls : List String) (l : String) (i : Int) (v : Option String),
        lineParse categories l = some (i, v) →
          lookupLast (parseLines categories (ls ++ [l])) i = some v)
    ∧ parseBatchResponse ["Food"] "Row 3: Food\nRow 3: Junk"
        = [(3, some "Food"), (3, none)]
    ∧ get_batch_llm_suggestions [(3, {}), (4, {})] ["Food"] []
        (BackendResponse.httpResponse 200 "Row 3: Food\nRow 3: Junk")
      = [(3, RowResult.failure (missingMsg 3)), (4, RowResult.failure (missingMsg 4))] := by
  refine ⟨?_, by decide, by decide⟩
  intro categories ls l i v h
  rw [parseLines_eq_filterMap, List.filterMap_append]
  unfold lookupLast
  rw [List.reverse_append]
  simp [List.filterMap_cons, h]

/-- Witness for C10's overwrite rule at a concrete response. -/
theorem claim_C10_witness :
    lookupLast (parseLines ["Food"] (["junk line"] ++ ["Row 2: Food"])) 2
      = some (some "Food") :=
  claim_C10.1 ["Food"] ["junk line"] "Row 2: Food" 2 (some "Food") (by decide)

theorem strLength_mk (l : List Char) : (⟨l⟩ : String).length = l.length := rfl

theorem strTake_length (n : Nat) (s : String) :
    (strTake n s).length = min n s.length := by
  show (s.data.take n).length = min n s.data.length
  exact List.length_take n s.data

theorem strLastN_length (n : Nat) (s : String) :
    (strLastN n s).length = s.length - (s.length - n) := by
  show (s.data.drop (s.data.length - n)).length = s.length - (s.length - n)
  rw [List.length_drop]
  rfl

/-- C9 counterexample: an output snippet of 6000 characters (at most
10,000 characters) is not forwarded unmodified, because outputs are
truncated at the 5,000-character threshold rather than the
10,000-character one the claim states for all payloads. -/
theorem claim_C9_counterexample :
    cOutBig.length ≤ 10000 ∧ (add_generation "" cOutBig).output ≠ cOutBig := by
  have hlen : cOutBig.length = 6000 := by
    show (List.replicate 6000 'a').length = 6000
    rw [List.length_replicate]
  refine ⟨by omega, ?_⟩
  have hout : (add_generation "" cOutBig).output
      = strTake 2000 cOutBig ++ truncMarker ++ strLastN 2000 cOutBig := by
    simp only [add_generation]
    rw [if_pos (by omega)]
  intro he
  have hl := congrArg String.length (hout.symm.trans he)
  rw [String.length_append, String.length_append, strTake_length, strLastN_length,
    hlen] at hl
  have hm : truncMarker.length = 23 := by decide
  rw [hm] at hl
  omega

/-- C9 as amended: traced inputs over 10,000 characters are truncated to
their first 5,000 plus last 2,000 characters (with a marker between) and
inputs of at most 10,000 characters pass unmodified, while traced
outputs use the 5,000-character threshold with first 2,000 plus last
2,000 characters kept. -/
theorem claim_C9 (i o : String) :
    (i.length ≤ 10000 → (add_generation i o).input = i)
    ∧ (10000 < i.length →
        (add_generation i o).input = strTake 5000 i ++ truncMarker ++ strLastN 2000 i)
    ∧ (o.length ≤ 5000 → (add_generation i o).output = o)
    ∧ (5000 < o.length →
        (add_generation i o).output
          = strTake 2000 o ++ truncMarker ++ strLastN 2000 o) := by
  refine ⟨fun h => ?_, fun h => ?_, fun h => ?_, fun h => ?_⟩ <;>
    simp only [add_generation]
  · rw [if_neg (by omega)]
  · rw [if_pos (by omega)]
  · rw [if_neg (by omega)]
  · rw [if_pos (by omega)]

/-- Witness for C9 at concrete payloads on both sides of each
threshold. -/
theorem claim_C9_witness :
    (add_generation "abc" "xyz").input = "abc"
    ∧ (add_generation cInBig "").input
        = strTake 5000 cInBig ++ truncMarker ++ strLastN 2000 cInBig
    ∧ (add_generation "abc" "xyz").output = "xyz"
    ∧ (add_generation "" cOutBig).output
        = strTake 2000 cOutBig ++ truncMarker ++ strLastN 2000 cOutBig := by
  have hbig : cInBig.length = 10001 := by
    show (List.replicate 10001 'a').length = 10001
    rw [List.length_replicate]
  have hobig : cOutBig.length = 6000 := by
    show (List.replicate 6000 'a').length = 6000
    rw [List.length_replicate]
  exact ⟨(claim_C9 "abc" "xyz").1 (by decide),
    (claim_C9 cInBig "").2.1 (by omega),
    (claim_C9 "abc" "xyz").2.2.1 (by decide),
    (claim_C9 "" cOutBig).2.2.2 (by omega)⟩

/-- Every branch of the batch operation builds its result by mapping
over the input batch, pairing each row index with some per-row
outcome. -/
theorem get_batch_shape (batch : List (Int × Tx)) (cats : List String)
    (hist : List HistEx) (resp : BackendResponse) :
    ∃ f : Int × Tx → RowResult,
      get_batch_llm_suggestions batch cats hist resp
        = batch.map (fun p => (p.1, f p)) := by
  unfold get_batch_llm_suggestions
  split
  · exact ⟨_, rfl⟩
  · split
    · exact ⟨_, rfl⟩
    · split
      · exact ⟨_, rfl⟩
      · exact ⟨_, rfl⟩

theorem map_fst_pairs (batch : List (Int × Tx)) (f : Int × Tx → RowResult) :
    (batch.map (fun p => (p.1, f p))).map Prod.fst = batch.map Prod.fst := by
  rw [List.map_map]
  rfl

theorem rowOutcome_of_noValid (parsed : List (Int × Option String)) (i : Int)
    (h : noValidSuggestion parsed i = true) :
    rowOutcome parsed i = RowResult.failure (missingMsg i) := by
  unfold rowOutcome
  unfold noValidSuggestion at h
  rcases hl : lookupLast parsed i with _ | ov
  · rfl
  · rcases ov with _ | s
    · rfl
    · rw [hl] at h
      have hs : s = "" := eq_of_beq (by simpa using h)
      show (if s = "" then RowResult.failure (missingMsg i) else RowResult.success s)
          = RowResult.failure (missingMsg i)
      rw [if_pos hs]

/-- C1 as amended: for every batch with unique row indices and every
backend response, the result's key sequence is exactly the input's row
index sequence (hence equal key sets, nothing extra even when the
response mentions other `Row k` indices, nothing missing); and on a
parsed 200-response for a batch of at least two rows, every row without
a truthy parsed suggestion carries exactly the MissingSuggestion-style
`missingMsg` failure. -/
theorem claim_C1 (batch : List (Int × Tx)) (categories : List String)
    (hist : List HistEx) (resp : BackendResponse)
    (hnd : (batch.map Prod.fst).Nodup) :
    ((get_batch_llm_suggestions batch categories hist resp).map Prod.fst
        = batch.map Prod.fst)
    ∧ (∀ j, j ∉ batch.map Prod.fst →
        lookupLast (get_batch_llm_suggestions batch categories hist resp) j = none)
    ∧ (∀ text, resp = BackendResponse.httpResponse 200 text → 2 ≤ batch.length →
        ∀ p ∈ batch,
          noValidSuggestion (parseBatchResponse categories text) p.1 = true →
            lookupLast (get_batch_llm_suggestions batch categories hist resp) p.1
              = some (RowResult.failure (missingMsg p.1))) := by
  obtain ⟨f, hf⟩ := get_batch_shape batch categories hist resp
  refine ⟨by rw [hf, map_fst_pairs], ?_, ?_⟩
  · intro j hj
    rw [hf]
    apply lookupLast_eq_none
    intro q hq
    obtain ⟨p, hp, rfl⟩ := List.mem_map.mp hq
    have : p.1 ∈ batch.map Prod.fst := List.mem_map_of_mem Prod.fst hp
    simp only [beq_iff_eq]
    intro he
    rw [he] at this
    exact hj this
  · intro text hresp h2 p hp hnv
    subst hresp
    rcases batch with _ | ⟨a, _ | ⟨b, t⟩⟩
    · cases hp
    · simp only [List.length_cons, List.length_nil] at h2
      omega
    · have hred : get_batch_llm_suggestions (a :: b :: t) categories hist
          (BackendResponse.httpResponse 200 text)
          = (a :: b :: t).map
              (fun q => (q.1, rowOutcome (parseBatchResponse categories text) q.1)) := by
        simp [get_batch_llm_suggestions, build_batch_llm_prompt]
      rw [hred]
      have hmem : (p.1, rowOutcome (parseBatchResponse categories text) p.1)
          ∈ (a :: b :: t).map
              (fun q => (q.1, rowOutcome (parseBatchResponse categories text) q.1)) :=
        List.mem_map_of_mem _ hp
      have hkeys : ((a :: b :: t).map
          (fun q => (q.1, rowOutcome (parseBatchResponse categories text) q.1))).map
            Prod.fst = (a :: b :: t).map Prod.fst := map_fst_pairs _ _
      rw [rowOutcome_of_noValid _ _ hnv] at hmem
      exact lookupLast_eq_of_mem_nodup _ _ _ hmem (by rw [hkeys]; exact hnd)

/-- Witness for C1 at a concrete two-row batch whose response only
covers row 0: the key sequence is preserved and row 1 gets the
MissingSuggestion-style failure. -/
theorem claim_C1_witness :
    ((get_batch_llm_suggestions [(0, {}), (1, {})] ["Food"] []
        (BackendResponse.httpResponse 200 "Row 0: Food")).map Prod.fst
      = [0, 1])
    ∧ lookupLast (get_batch_llm_suggestions [(0, {}), (1, {})] ["Food"] []
        (BackendResponse.httpResponse 200 "Row 0: Food")) 1
      = some (RowResult.failure (missingMsg 1)) := by
  have h := claim_C1 [(0, {}), (1, {})] ["Food"] []
    (BackendResponse.httpResponse 200 "Row 0: Food") (by decide)
  exact ⟨h.1, h.2.2 "Row 0: Food" rfl (by decide) (1, {}) (by decide) (by decide)⟩

/-- C1 counterexample to the claim as stated: on a single-row batch the
prompt-template `IndexError` is caught and the row's failure entry
carries `str(IndexError)`, not the MissingSuggestion-style message the
claim asserts for rows absent from the parsed response. -/
theorem claim_C1_counterexample :
    get_batch_llm_suggestions [(0, {})] ["Food"] []
        (BackendResponse.httpResponse 200 "")
      = [(0, RowResult.failure indexErrMsg)]
    ∧ RowResult.failure indexErrMsg ≠ RowResult.failure (missingMsg 0) := by
  decide

/-- For batches of at least two rows (where the prompt template does not
raise), a failed backend call yields the same failure entry for every
row in the batch: the connection-failure message on `ConnectionError`
and the status-code message on a non-200 response — no successes, no
other error kinds. -/
theorem batch_call_failure_uniform (batch : List (Int × Tx)) (cats : List String)
    (hist : List HistEx) (h2 : 2 ≤ batch.length) :
    get_batch_llm_suggestions batch cats hist BackendResponse.connError
      = batch.map (fun p => (p.1, RowResult.failure connMsg))
    ∧ ∀ status text, status ≠ 200 →
        get_batch_llm_suggestions batch cats hist
            (BackendResponse.httpResponse status text)
          = batch.map (fun p => (p.1, RowResult.failure (apiErrMsg status))) := by
  rcases batch with _ | ⟨a, _ | ⟨b, t⟩⟩
  · simp only [List.length_nil] at h2
    omega
  · simp only [List.length_cons, List.length_nil] at h2
    omega
  · constructor
    · simp [get_batch_llm_suggestions, build_batch_llm_prompt]
    · intro status text hs
      simp [get_batch_llm_suggestions, build_batch_llm_prompt, hs]

/-- C5 evaluated: on a single-row batch the prompt template raises
before the backend is ever contacted, so a connection-failing backend
yields `str(IndexError)` for the row instead of the Unreachable-kind
connection message; on batches of two rows both failure shapes are
uniform with the proper message. -/
theorem claim_C5_eval :
    get_batch_llm_suggestions [(7, {})] ["Food"] [] BackendResponse.connError
      = [(7, RowResult.failure indexErrMsg)]
    ∧ get_batch_llm_suggestions [(7, {}), (8, {})] ["Food"] []
        BackendResponse.connError
      = [(7, RowResult.failure connMsg), (8, RowResult.failure connMsg)]
    ∧ get_batch_llm_suggestions [(7, {}), (8, {})] ["Food"] []
        (BackendResponse.httpResponse 500 "")
      = [(7, RowResult.failure (apiErrMsg 500)), (8, RowResult.failure (apiErrMsg 500))]
    ∧ indexErrMsg ≠ connMsg := by
  refine ⟨?_, ?_, ?_, by decide⟩ <;> decide

/-- C3 evaluated: a single-row batch with a perfectly well-formed
response fails with `str(IndexError)` because the prompt template
indexes the second batch element unconditionally; a two-row batch with
one valid line per row succeeds for every row with the canonically-cased
category (`other` resolving to `Other`). -/
theorem claim_C3_eval :
    get_batch_llm_suggestions [(0, {})] ["Food", "Other"] []
        (BackendResponse.httpResponse 200 "Row 0: Food")
      = [(0, RowResult.failure indexErrMsg)]
    ∧ get_batch_llm_suggestions [(0, {}), (1, {})] ["Food", "Other"] []
        (BackendResponse.httpResponse 200 "Row 0: Food\nRow 1: other")
      = [(0, RowResult.success "Food"), (1, RowResult.success "Other")] := by
  constructor <;> decide

/-- C8 counterexample: with an empty category list and no unmapped rows
the endpoint returns the 400 `No categories available` error response,
not the empty success the claim asserts for every state with no
unmapped rows. -/
theorem claim_C8_counterexample :
    (bulk_map [] [] (fun _ => BackendResponse.connError)).1 = BulkResponse.noCategories
    ∧ (bulk_map [] [] (fun _ => BackendResponse.connError)).1
        ≠ BulkResponse.allMapped := by
  decide

/-- C8 as amended: when the category list is nonempty and every row is
already mapped, `bulk_map` returns the all-mapped success immediately —
empty mappings, zero counts — and makes no backend call. -/
theorem claim_C8 (rows : List (String × ProgressRow)) (categories : List String)
    (backend : Nat → BackendResponse)
    (hc : categories ≠ []) (hm : ∀ p ∈ rows, p.2.mapped = true) :
    bulk_map rows categories backend = (BulkResponse.allMapped, []) := by
  have hfil : rows.filter (fun p => !p.2.mapped) = [] :=
    List.filter_eq_nil_iff.mpr (fun p hp => by simp [hm p hp])
  unfold bulk_map
  simp [hfil, hc]

/-- Witness for C8 at a concrete fully-mapped progress state. -/
theorem claim_C8_witness :
    bulk_map [("0", ⟨{}, some "Food", true⟩)] ["Food"]
        (fun _ => BackendResponse.connError)
      = (BulkResponse.allMapped, []) :=
  claim_C8 _ _ _ (by decide) (by decide)

/-- C2 evaluated on a 12-row bulk run with a fully well-formed backend:
the partitioning and call pattern are as claimed (three sequential calls
of sizes 5, 5, 2), but no suggestion ever succeeds — every row fails
with the missing-category message — and the history snapshot passed to
every call, including batches 2 and 3, is still the empty initial
history: parsed suggestions are keyed by `int` row indices while the
bulk rows are keyed by `str`, and Python `str == int` is always false.
The same five-row response parsed for integer row keys yields five
successes, isolating the key-type mismatch as the cause. -/
theorem claim_C2_eval :
    ((bulk_map rows12 ["Food"] oracle12).2.map (fun r => r.batch.length) = [5, 5, 2])
    ∧ ((bulk_map rows12 ["Food"] oracle12).2.map CallRecord.hist = [[], [], []])
    ∧ (bulk_map rows12 ["Food"] oracle12).1 = BulkResponse.done expectedMappings12 12
    ∧ parseBatchResponse ["Food"] resp0
        = [(0, some "Food"), (1, some "Food"), (2, some "Food"), (3, some "Food"),
           (4, some "Food")]
    ∧ get_batch_llm_suggestions
        [(0, txD 0), (1, txD 1), (2, txD 2), (3, txD 3), (4, txD 4)] ["Food"] []
        (BackendResponse.httpResponse 200 resp0)
      = [(0, RowResult.success "Food"), (1, RowResult.success "Food"),
         (2, RowResult.success "Food"), (3, RowResult.success "Food"),
         (4, RowResult.success "Food")] := by
  refine ⟨?_, ?_, ?_, ?_, ?_⟩ <;> decide

/-! ## General correctness of batch-response parsing

The remainder proves, for batches of at least two rows, the general
success theorem behind C3: a response consisting of exactly one
well-formed `Row {idx}: {category}` line per input row makes every row
succeed with its canonically-resolved category. -/

theorem dropWhile_length_le (p : Char → Bool) (l : List Char) :
    (l.dropWhile p).length ≤ l.length := by
  induction l with
  | nil => simp
  | cons a t ih =>
    rw [List.dropWhile_cons]
    by_cases h : p a = true
    · rw [if_pos h]
      exact Nat.le_trans ih (Nat.le_succ _)
    · rw [if_neg h]

theorem head_false_of_dropWhile_eq_self {p : Char → Bool} {a : Char} {t : List Char}
    (h : (a :: t).dropWhile p = a :: t) : p a = false := by
  by_contra hc
  have ha : p a = true := by
    cases hp : p a
    · exact absurd hp hc
    · rfl
  rw [List.dropWhile_cons, if_pos ha] at h
  have := dropWhile_length_le p t
  rw [h] at this
  simp only [List.length_cons] at this
  omega

theorem trimBy_of_noEdge (p : Char → Bool) (l : List Char) (h : noEdge p l) :
    trimBy p l = l := by
  unfold trimBy
  rw [h.1, h.2, List.reverse_reverse]

theorem trimBy_cons_ws (p : Char → Bool) (x : Char) (l : List Char)
    (hx : p x = true) (h : noEdge p l) : trimBy p (x :: l) = l := by
  unfold trimBy
  rw [List.dropWhile_cons, if_pos hx, h.1, h.2, List.reverse_reverse]

theorem removeRow_cons_ne (c : Char) (l : List Char) (hc : c ≠ 'R') :
    removeRow (c :: l) = c :: removeRow l := by
  match l with
  | [] => rfl
  | [d] => rfl
  | d :: e :: r =>
    show (if c = 'R' ∧ d = 'o' ∧ e = 'w' then removeRow r
          else c :: removeRow (d :: e :: r)) = _
    rw [if_neg (fun hand => hc hand.1)]

theorem removeRow_eq_self_of_no_R (l : List Char) (h : 'R' ∉ l) :
    removeRow l = l := by
  induction l with
  | nil => rfl
  | cons a t ih =>
    have ha : a ≠ 'R' := fun he => h (he ▸ List.mem_cons_self a t)
    rw [removeRow_cons_ne a t ha, ih (fun hm => h (List.mem_cons_of_mem a hm))]

theorem splitFirst_append (sep : Char) (xs ys : List Char) (h : sep ∉ xs) :
    splitFirst sep (xs ++ sep :: ys) = some (xs, ys) := by
  induction xs with
  | nil => simp [splitFirst]
  | cons a t ih =>
    have ha : a ≠ sep := fun he => h (he ▸ List.mem_cons_self a t)
    rw [List.cons_append]
    show (if a = sep then some ([], t ++ sep :: ys)
          else match splitFirst sep (t ++ sep :: ys) with
               | none => none
               | some (x, b) => some (a :: x, b)) = _
    rw [if_neg ha, ih (fun hm => h (List.mem_cons_of_mem a hm))]

theorem splitCharList_ne_nil (sep : Char) (l : List Char) :
    splitCharList sep l ≠ [] := by
  induction l with
  | nil => simp [splitCharList]
  | cons a t ih =>
    rw [splitCharList]
    rcases hr : splitCharList sep t with _ | ⟨g, gs⟩
    · exact absurd hr ih
    · show (if a = sep then [] :: g :: gs else (a :: g) :: gs) ≠ []
      by_cases ha : a = sep
      · rw [if_pos ha]
        simp
      · rw [if_neg ha]
        simp

theorem splitCharList_no_sep (sep : Char) (l : List Char) (h : sep ∉ l) :
    splitCharList sep l = [l] := by
  induction l with
  | nil => rfl
  | cons a t ih =>
    have ha : a ≠ sep := fun he => h (he ▸ List.mem_cons_self a t)
    rw [splitCharList, ih (fun hm => h (List.mem_cons_of_mem a hm))]
    show (if a = sep then [] :: t :: [] else (a :: t) :: []) = [a :: t]
    rw [if_neg ha]

theorem splitCharList_append_sep (sep : Char) (xs r : List Char) (h : sep ∉ xs) :
    splitCharList sep (xs ++ sep :: r) = xs :: splitCharList sep r := by
  induction xs with
  | nil =>
    rw [List.nil_append, splitCharList]
    rcases hr : splitCharList sep r with _ | ⟨g, gs⟩
    · exact absurd hr (splitCharList_ne_nil sep r)
    · show (if sep = sep then [] :: g :: gs else (sep :: g) :: gs) = [] :: g :: gs
      rw [if_pos rfl]
  | cons a t ih =>
    have ha : a ≠ sep := fun he => h (he ▸ List.mem_cons_self a t)
    rw [List.cons_append, splitCharList, ih (fun hm => h (List.mem_cons_of_mem a hm))]
    show (if a = sep then [] :: t :: splitCharList sep r
          else (a :: t) :: splitCharList sep r)
        = (a :: t) :: splitCharList sep r
    rw [if_neg ha]

theorem splitCharList_intercalate (sep : Char) (gs : List (List Char))
    (hne : gs ≠ []) (h : ∀ g ∈ gs, sep ∉ g) :
    splitCharList sep (intercalateChar sep gs) = gs := by
  induction gs with
  | nil => exact absurd rfl hne
  | cons g rest ih =>
    rcases rest with _ | ⟨g1, rest'⟩
    · exact splitCharList_no_sep sep g (h g (List.mem_cons_self g []))
    · rw [intercalateChar,
        splitCharList_append_sep sep g _ (h g (List.mem_cons_self g _)),
        ih (by simp) (fun g' hg' => h g' (List.mem_cons_of_mem g hg'))]

theorem intercalateChar_ne_nil (sep : Char) (g : List Char) (gs : List (List Char))
    (hg : g ≠ []) : intercalateChar sep (g :: gs) ≠ [] := by
  rcases gs with _ | ⟨g1, rest⟩
  · exact hg
  · rw [intercalateChar]
    rcases g with _ | ⟨a, t⟩
    · exact absurd rfl hg
    · simp

theorem dropWhile_rev_intercalate (sep : Char) (gs : List (List Char))
    (hne : gs ≠ [])
    (h : ∀ g ∈ gs, g ≠ [] ∧ g.reverse.dropWhile isPyWs = g.reverse) :
    (intercalateChar sep gs).reverse.dropWhile isPyWs
      = (intercalateChar sep gs).reverse := by
  induction gs with
  | nil => exact absurd rfl hne
  | cons g rest ih =>
    rcases rest with _ | ⟨g1, rest'⟩
    · exact (h g (List.mem_cons_self g [])).2
    · rw [intercalateChar]
      have hI := ih (by simp) (fun g' hg' => h g' (List.mem_cons_of_mem g hg'))
      have hIne : intercalateChar sep (g1 :: rest') ≠ [] :=
        intercalateChar_ne_nil sep g1 rest' (h g1 (by simp)).1
      rcases hrev : (intercalateChar sep (g1 :: rest')).reverse with _ | ⟨a, t⟩
      · exact absurd (by simpa using hrev) hIne
      · have ha : isPyWs a = false :=
          head_false_of_dropWhile_eq_self (by rw [← hrev]; exact hI)
      -- reverse of g ++ sep :: I is I.reverse ++ sep :: g.reverse
        rw [List.reverse_append, List.reverse_cons, List.append_assoc, hrev]
        rw [List.cons_append, List.dropWhile_cons, if_neg (by rw [ha]; simp)]

theorem mkRowLine_data (s : LineSpec) :
    (mkRowLine s).data
      = (['R', 'o', 'w', ' '] ++ s.tok.data) ++ ':' :: ' ' :: s.raw.data := by
  show ((("Row " ++ s.tok) ++ ": ") ++ s.raw).data = _
  rw [String.data_append, String.data_append, String.data_append]
  rw [show "Row ".data = ['R', 'o', 'w', ' '] from rfl,
    show ": ".data = [':', ' '] from rfl]
  simp [List.append_assoc]

theorem mkRowLine_no_newline (s : LineSpec) (htoknl : '\n' ∉ s.tok.data)
    (hrawnl : '\n' ∉ s.raw.data) : '\n' ∉ (mkRowLine s).data := by
  rw [mkRowLine_data]
  intro hm
  rcases List.mem_append.mp hm with hm1 | hm2
  · rcases List.mem_append.mp hm1 with hm3 | hm4
    · simp at hm3
    · exact htoknl hm4
  · rcases List.mem_cons.mp hm2 with hm3 | hm4
    · simp at hm3
    · rcases List.mem_cons.mp hm4 with hm5 | hm6
      · simp at hm5
      · exact hrawnl hm6

theorem rev_nonws_head (l : List Char) (hne : l ≠ [])
    (hrev : l.reverse.dropWhile isPyWs = l.reverse) :
    ∃ a t, l.reverse = a :: t ∧ isPyWs a = false := by
  rcases hr : l.reverse with _ | ⟨a, t⟩
  · exact absurd (by simpa using hr) hne
  · exact ⟨a, t, rfl, head_false_of_dropWhile_eq_self (by rw [← hr]; exact hrev)⟩

theorem mkRowLine_noEdge (s : LineSpec) (hrawne : s.raw ≠ "")
    (hrawedge : noEdge isPyWs s.raw.data) : noEdge isPyWs (mkRowLine s).data := by
  have hrne : s.raw.data ≠ [] := fun he => hrawne (String.ext (by rw [he]))
  obtain ⟨a, t, hrev, ha⟩ := rev_nonws_head s.raw.data hrne hrawedge.2
  constructor
  · rw [mkRowLine_data]
    rw [List.append_assoc, List.cons_append, List.dropWhile_cons]
    rw [if_neg (by simp [isPyWs])]
  · rw [mkRowLine_data, List.reverse_append, List.reverse_cons, List.reverse_cons,
      List.append_assoc, List.append_assoc, hrev]
    rw [List.cons_append, List.dropWhile_cons, if_neg (by rw [ha]; simp)]

theorem pyStrip_mkRowLine (s : LineSpec) (hrawne : s.raw ≠ "")
    (hrawedge : noEdge isPyWs s.raw.data) : pyStrip (mkRowLine s) = mkRowLine s := by
  show (⟨trimBy isPyWs (mkRowLine s).data⟩ : String) = mkRowLine s
  rw [trimBy_of_noEdge _ _ (mkRowLine_noEdge s hrawne hrawedge)]

theorem lineParse_mkRowLine (categories : List String) (s : LineSpec)
    (h : specOk categories s) :
    lineParse categories (mkRowLine s) = some (s.idx, some s.canon) := by
  obtain ⟨hint, htokne, htokcolon, htoknl, htokR, htokedge, hrawne, hrawnl,
    hrawedge, hres, hcanon⟩ := h
  have htne : s.tok.data ≠ [] := fun he => htokne (String.ext (by rw [he]))
  have hrne : s.raw.data ≠ [] := fun he => hrawne (String.ext (by rw [he]))
  obtain ⟨ta, tt, htrev, hta⟩ := rev_nonws_head s.tok.data htne htokedge.2
  -- the stripped line and its parts
  have hline := pyStrip_mkRowLine s hrawne hrawedge
  have hnee : mkRowLine s ≠ "" := by
    intro he
    have := congrArg String.data he
    rw [mkRowLine_data] at this
    simp at this
  have hpre : (['R', 'o', 'w'].isPrefixOf (mkRowLine s).data) = true := by
    rw [mkRowLine_data]
    rfl
  have hsplit : splitFirst ':' (mkRowLine s).data
      = some (['R', 'o', 'w', ' '] ++ s.tok.data, ' ' :: s.raw.data) := by
    rw [mkRowLine_data]
    apply splitFirst_append
    intro hm
    rcases List.mem_append.mp hm with hm1 | hm2
    · simp at hm1
    · exact htokcolon hm2
  -- trimming the row part is the identity
  have hrowtrim : trimBy isPyWs (['R', 'o', 'w', ' '] ++ s.tok.data)
      = ['R', 'o', 'w', ' '] ++ s.tok.data := by
    apply trimBy_of_noEdge
    constructor
    · rw [List.cons_append, List.dropWhile_cons]
      rw [if_neg (by simp [isPyWs])]
    · rw [List.reverse_append, htrev, List.cons_append, List.dropWhile_cons,
        if_neg (by rw [hta]; simp)]
  -- removeRow drops exactly the leading literal `Row`
  have hrem : removeRow (['R', 'o', 'w', ' '] ++ s.tok.data) = ' ' :: s.tok.data := by
    show removeRow ('R' :: 'o' :: 'w' :: (' ' :: s.tok.data)) = ' ' :: s.tok.data
    rw [show removeRow ('R' :: 'o' :: 'w' :: (' ' :: s.tok.data))
        = removeRow (' ' :: s.tok.data) by rw [removeRow]; simp]
    rw [removeRow_cons_ne _ _ (by decide), removeRow_eq_self_of_no_R _ htokR]
  have hidxs : trimBy isPyWs (' ' :: s.tok.data) = s.tok.data :=
    trimBy_cons_ws _ _ _ (by simp [isPyWs]) htokedge
  have hcat : trimBy isPyWs (' ' :: s.raw.data) = s.raw.data :=
    trimBy_cons_ws _ _ _ (by simp [isPyWs]) hrawedge
  have hcat2 : trimBy isPyWs s.raw.data = s.raw.data := trimBy_of_noEdge _ _ hrawedge
  -- now evaluate the parser, unfolding the let bindings up to defeq
  show (if pyStrip (mkRowLine s) = "" then none
        else if ¬ (['R', 'o', 'w'].isPrefixOf (pyStrip (mkRowLine s)).data) then none
        else
          match splitFirst ':' (pyStrip (mkRowLine s)).data with
          | none => none
          | some (partA, partB) =>
            match pyIntOfList (trimBy isPyWs (removeRow (trimBy isPyWs partA))) with
            | none => none
            | some n =>
              match resolveCategory categories
                  (stripQuotes ⟨trimBy isPyWs (trimBy isPyWs partB)⟩) with
              | some c => some (n, some c)
              | none => some (n, none))
      = some (s.idx, some s.canon)
  rw [hline]
  rw [if_neg hnee, hpre]
  rw [if_neg (by simp)]
  rw [hsplit]
  show (match pyIntOfList (trimBy isPyWs (removeRow
          (trimBy isPyWs (['R', 'o', 'w', ' '] ++ s.tok.data)))) with
        | none => none
        | some n =>
          match resolveCategory categories
              (stripQuotes ⟨trimBy isPyWs (trimBy isPyWs (' ' :: s.raw.data))⟩) with
          | some c => some (n, some c)
          | none => some (n, none)) = some (s.idx, some s.canon)
  rw [hrowtrim, hrem, hidxs,
    show pyIntOfList s.tok.data = some s.idx from hint]
  show (match resolveCategory categories
          (stripQuotes ⟨trimBy isPyWs (trimBy isPyWs (' ' :: s.raw.data))⟩) with
        | some c => some (s.idx, some c)
        | none => some (s.idx, none)) = some (s.idx, some s.canon)
  rw [hcat, hcat2]
  rw [show (⟨s.raw.data⟩ : String) = s.raw from rfl, hres]

theorem dropWhile_intercalate_head (sep : Char) (g : List Char)
    (gs : List (List Char)) (a : Char) (t : List Char) (hg : g = a :: t)
    (ha : isPyWs a = false) :
    (intercalateChar sep (g :: gs)).dropWhile isPyWs
      = intercalateChar sep (g :: gs) := by
  subst hg
  rcases gs with _ | ⟨g1, rest⟩
  · rw [intercalateChar, List.dropWhile_cons, if_neg (by rw [ha]; simp)]
  · rw [intercalateChar, List.cons_append, List.dropWhile_cons,
      if_neg (by rw [ha]; simp)]

theorem joinLines_data (ls : List String) :
    (joinLines ls).data = intercalateChar '\n' (ls.map String.data) := rfl

theorem pyStrip_joinLines_specs (specs : List LineSpec) (hne : specs ≠ [])
    (hraw : ∀ s ∈ specs, s.raw ≠ "" ∧ noEdge isPyWs s.raw.data) :
    pyStrip (joinLines (specs.map mkRowLine)) = joinLines (specs.map mkRowLine) := by
  have hgroups : (specs.map mkRowLine).map String.data
      = specs.map (fun s => (mkRowLine s).data) := by
    rw [List.map_map]
    rfl
  apply String.ext
  show trimBy isPyWs (joinLines (specs.map mkRowLine)).data
      = (joinLines (specs.map mkRowLine)).data
  rw [joinLines_data, hgroups]
  rcases specs with _ | ⟨s0, rest⟩
  · exact absurd rfl hne
  · apply trimBy_of_noEdge
    constructor
    · rw [List.map_cons]
      exact dropWhile_intercalate_head '\n' _ _ 'R'
        ('o' :: 'w' :: ' ' :: (s0.tok.data ++ ':' :: ' ' :: s0.raw.data))
        (by rw [mkRowLine_data]; rfl) (by simp [isPyWs])
    · rw [List.map_cons]
      apply dropWhile_rev_intercalate _ _ (by simp)
      intro g hg
      have hg' : g ∈ List.map (fun s => (mkRowLine s).data) (s0 :: rest) := hg
      obtain ⟨s, hs, rfl⟩ := List.mem_map.mp hg'
      have hne2 := mkRowLine_noEdge s (hraw s hs).1 (hraw s hs).2
      refine ⟨?_, hne2.2⟩
      rw [mkRowLine_data]
      simp

theorem pySplitLines_joinLines_specs (specs : List LineSpec) (hne : specs ≠ [])
    (hnl : ∀ s ∈ specs, '\n' ∉ (mkRowLine s).data) :
    pySplitLines (joinLines (specs.map mkRowLine)) = specs.map mkRowLine := by
  unfold pySplitLines
  rw [joinLines_data]
  rw [splitCharList_intercalate '\n' _
    (by simpa using hne)
    (by
      intro g hg
      obtain ⟨line, hline, rfl⟩ := List.mem_map.mp hg
      obtain ⟨s, hs, rfl⟩ := List.mem_map.mp hline
      exact hnl s hs)]
  rw [List.map_map]
  show List.map (fun l => l) (specs.map mkRowLine) = specs.map mkRowLine
  exact List.map_id _

theorem filterMap_lineParse_specs (categories : List String)
    (specs : List LineSpec) (hok : ∀ s ∈ specs, specOk categories s) :
    (specs.map mkRowLine).filterMap (lineParse categories)
      = specs.map (fun s => (s.idx, some s.canon)) := by
  induction specs with
  | nil => rfl
  | cons s rest ih =>
    rw [List.map_cons, List.map_cons, List.filterMap_cons,
      lineParse_mkRowLine categories s (hok s (List.mem_cons_self s rest)),
      ih (fun s' hs' => hok s' (List.mem_cons_of_mem s hs'))]

theorem parseBatchResponse_specs (categories : List String) (specs : List LineSpec)
    (hne : specs ≠ []) (hok : ∀ s ∈ specs, specOk categories s) :
    parseBatchResponse categories (joinLines (specs.map mkRowLine))
      = specs.map (fun s => (s.idx, some s.canon)) := by
  unfold parseBatchResponse
  rw [pyStrip_joinLines_specs specs hne
    (fun s hs => ⟨(hok s hs).2.2.2.2.2.2.1, (hok s hs).2.2.2.2.2.2.2.2.1⟩)]
  rw [pySplitLines_joinLines_specs specs hne
    (fun s hs =>
      mkRowLine_no_newline s (hok s hs).2.2.2.1 (hok s hs).2.2.2.2.2.2.2.1)]
  rw [parseLines_eq_filterMap, filterMap_lineParse_specs categories specs hok]

theorem rowOutcome_success (parsed : List (Int × Option String)) (i : Int)
    (c : String) (hc : c ≠ "") (hl : lookupLast parsed i = some (some c)) :
    rowOutcome parsed i = RowResult.success c := by
  unfold rowOutcome
  rw [hl]
  show (if c = "" then RowResult.failure (missingMsg i) else RowResult.success c) = _
  rw [if_neg hc]

/-- General batch-success theorem (the claim C3 makes, on the domain
where the prompt template does not raise): for a batch of at least two
rows with distinct indices, a 200-response consisting of exactly one
well-formed `Row {idx}: {category}` line per input row, in batch order,
makes every row succeed with its canonically-resolved category. -/
theorem batch_success_general (categories : List String) (specs : List LineSpec)
    (h2 : 2 ≤ specs.length) (hnd : (specs.map LineSpec.idx).Nodup)
    (hok : ∀ s ∈ specs, specOk categories s) (hist : List HistEx) :
    get_batch_llm_suggestions (specs.map fun s => (s.idx, s.tx)) categories hist
        (BackendResponse.httpResponse 200 (joinLines (specs.map mkRowLine)))
      = specs.map fun s => (s.idx, RowResult.success s.canon) := by
  have hne : specs ≠ [] := by
    intro he
    rw [he] at h2
    simp at h2
  have hparsed := parseBatchResponse_specs categories specs hne hok
  rcases specs with _ | ⟨s0, _ | ⟨s1, rest⟩⟩
  · exact absurd rfl hne
  · simp only [List.length_cons, List.length_nil] at h2
    omega
  · have hred : get_batch_llm_suggestions
        ((s0 :: s1 :: rest).map fun s => (s.idx, s.tx)) categories hist
        (BackendResponse.httpResponse 200
          (joinLines ((s0 :: s1 :: rest).map mkRowLine)))
        = ((s0 :: s1 :: rest).map fun s => (s.idx, s.tx)).map
            (fun p => (p.1, rowOutcome (parseBatchResponse categories
              (joinLines ((s0 :: s1 :: rest).map mkRowLine))) p.1)) := by
      simp [get_batch_llm_suggestions, build_batch_llm_prompt]
    rw [hred, List.map_map]
    apply List.map_congr_left
    intro s hs
    show (s.idx, rowOutcome (parseBatchResponse categories
        (joinLines ((s0 :: s1 :: rest).map mkRowLine))) s.idx)
      = (s.idx, RowResult.success s.canon)
    rw [hparsed]
    rw [rowOutcome_success _ _ s.canon
      (hok s hs).2.2.2.2.2.2.2.2.2.2
      (lookupLast_eq_of_mem_nodup _ _ _
        (List.mem_map_of_mem (fun s => (s.idx, some s.canon)) hs)
        (by rw [List.map_map]; exact hnd))]

/-- Instantiation of the general batch-success theorem at a concrete
two-row batch, discharging all of its hypotheses by evaluation. -/
theorem batch_success_general_example :
    get_batch_llm_suggestions [((3 : Int), ({} : Tx)), (12, {})] ["Food", "Other"] []
        (BackendResponse.httpResponse 200
          (joinLines [mkRowLine ⟨3, {}, "3", "food", "Food"⟩,
            mkRowLine ⟨12, {}, "12", "Other", "Other"⟩]))
      = [(3, RowResult.success "Food"), (12, RowResult.success "Other")] :=
  batch_success_general ["Food", "Other"]
    [⟨3, {}, "3", "food", "Food"⟩, ⟨12, {}, "12", "Other", "Other"⟩]
    (by decide) (by decide) (by decide) []

end Budget

